import Mathlib

/-!
Shallow embedding of `django_universal_paginator/utils.py` (the typed-value
binary codec, the cursor serializers and the keyset boundary-predicate
builder `filter_by_order_key`), together with proofs about the claims of
the specification.

Bytes are modelled as `List Nat` (each entry a byte value); Python `str` is
modelled as Lean `String` (a sequence of unicode scalar values, so that
`len(s)` is `s.length` and `s.encode("utf-8")` is an explicit UTF-8 byte
encoder); Python `int` is `Int`; fallible code returns `Except`.
-/

namespace UPag

/-- Big-endian unsigned encoding of `n` in exactly `k` bytes, the model of
`struct.pack` with formats `B`, `!H`, `!I`, `!Q` (`k` = 1, 2, 4, 8).  The
source only packs values that fit, so the low `8*k` bits determine the
output. -/
def beBytes : Nat → Nat → List Nat
  | 0, _ => []
  | k + 1, n => beBytes k (n / 256) ++ [n % 256]

/-- Big-endian unsigned value of a byte list, the model of `struct.unpack`
with the same formats. -/
def beVal (l : List Nat) : Nat :=
  l.foldl (fun a b => a * 256 + b) 0

/-- UTF-8 encoding of one unicode scalar value, as Python's
`str.encode("utf-8")` produces it. -/
def utf8EncodeChar (c : Char) : List Nat :=
  let n := c.toNat
  if n < 0x80 then [n]
  else if n < 0x800 then
    [0xC0 + n / 64, 0x80 + n % 64]
  else if n < 0x10000 then
    [0xE0 + n / 4096, 0x80 + n / 64 % 64, 0x80 + n % 64]
  else
    [0xF0 + n / 262144, 0x80 + n / 4096 % 64, 0x80 + n / 64 % 64, 0x80 + n % 64]

/-- Python `s.encode("utf-8")`. -/
def utf8Encode (s : String) : List Nat :=
  (s.data.map utf8EncodeChar).flatten

/-- Strict UTF-8 decoding, as Python's `bytes.decode("utf-8")`: rejects
stray continuation bytes, overlong forms, surrogates and code points above
U+10FFFF.  Returns the decoded characters or `none` (a Python
`UnicodeDecodeError`).  The `fuel` argument makes the recursion structural
(each step consumes at least one byte, so `fuel = l.length` always
suffices; the `0, _ :: _` case is unreachable then). -/
def utf8DecodeCharsF : Nat → List Nat → Option (List Char)
  | _, [] => some []
  | 0, _ :: _ => none
  | fuel + 1, b :: rest =>
    if b < 0x80 then
      (utf8DecodeCharsF fuel rest).map (fun cs => Char.ofNat b :: cs)
    else if b < 0xC2 then
      none
    else if b < 0xE0 then
      match rest with
      | c1 :: rest1 =>
        if 0x80 ≤ c1 ∧ c1 < 0xC0 then
          (utf8DecodeCharsF fuel rest1).map
            (fun cs => Char.ofNat ((b - 0xC0) * 64 + (c1 - 0x80)) :: cs)
        else none
      | [] => none
    else if b < 0xF0 then
      match rest with
      | c1 :: c2 :: rest2 =>
        if (0x80 ≤ c1 ∧ c1 < 0xC0) ∧ (0x80 ≤ c2 ∧ c2 < 0xC0) ∧
            (b = 0xE0 → 0xA0 ≤ c1) ∧ (b = 0xED → c1 < 0xA0) then
          (utf8DecodeCharsF fuel rest2).map
            (fun cs =>
              Char.ofNat ((b - 0xE0) * 4096 + (c1 - 0x80) * 64 + (c2 - 0x80)) :: cs)
        else none
      | _ => none
    else if b < 0xF5 then
      match rest with
      | c1 :: c2 :: c3 :: rest3 =>
        if (0x80 ≤ c1 ∧ c1 < 0xC0) ∧ (0x80 ≤ c2 ∧ c2 < 0xC0) ∧
            (0x80 ≤ c3 ∧ c3 < 0xC0) ∧
            (b = 0xF0 → 0x90 ≤ c1) ∧ (b = 0xF4 → c1 < 0x90) then
          (utf8DecodeCharsF fuel rest3).map
            (fun cs =>
              Char.ofNat ((b - 0xF0) * 262144 + (c1 - 0x80) * 4096 +
                (c2 - 0x80) * 64 + (c3 - 0x80)) :: cs)
        else none
      | _ => none
    else none

/-- Python `data.decode("utf-8")` as a `String`. -/
def utf8Decode (l : List Nat) : Option String :=
  (utf8DecodeCharsF l.length l).map String.mk

/-- The Python values the codec of `utils.py` handles: `None`, `True`,
`False`, `str`, `bytes` and `int`. -/
inductive PyValue where
  | none : PyValue
  | true : PyValue
  | false : PyValue
  | str : String → PyValue
  | bytes : List Nat → PyValue
  | int : Int → PyValue
deriving DecidableEq, Repr

/-- Errors raised by the codec: `SerializationError` ("value too long"),
a failed struct/utf-8/index access while deserializing, and a marker for a
type error that the source cannot reach (a serializer called on a value its
checker rejected). -/
inductive SerErr where
  | valueTooLong : SerErr
  | malformed : SerErr
  | typeError : SerErr
deriving DecidableEq, Repr

instance {ε α : Type} [DecidableEq ε] [DecidableEq α] :
    DecidableEq (Except ε α) := fun
  | .error e, .error f =>
    match decEq e f with
    | isTrue h => isTrue (by rw [h])
    | isFalse h => isFalse (fun hh => h (Except.error.inj hh))
  | .error _, .ok _ => isFalse (by simp)
  | .ok _, .error _ => isFalse (by simp)
  | .ok a, .ok b =>
    match decEq a b with
    | isTrue h => isTrue (by rw [h])
    | isFalse h => isFalse (fun hh => h (Except.ok.inj hh))

/-- Python `str(value)` for the values of `PyValue` (`utils.py` only ever
reaches it for integers outside the 8-byte classes; the other variants are
matched by an earlier checker, so their rendering is immaterial). -/
def pyStr : PyValue → String
  | .none => "None"
  | .true => "True"
  | .false => "False"
  | .str s => s
  | .bytes _ => "bytes"
  | .int n => toString n

/-- Source `is_short_string` (utils.py:28-29). -/
def is_short_string : PyValue → Except SerErr Bool
  | .str s => .ok (decide (s.length < 256))
  | _ => .ok Bool.false

/-- Source `serialize_short_string` (utils.py:32-33):
`struct.pack("B", len(v)) + v.encode("utf-8")`. -/
def serialize_short_string (s : String) : List Nat :=
  s.length :: utf8Encode s

/-- Source `deserialize_short_string` (utils.py:36-39): reads the length
byte `v[0]`, decodes `v[1:]` — the whole remaining buffer — and reports
`length + 1` bytes consumed. -/
def deserialize_short_string (v : List Nat) : Except SerErr (Nat × PyValue) :=
  match v with
  | [] => .error .malformed
  | length :: rest =>
    match utf8Decode rest with
    | some text => .ok (length + 1, .str text)
    | Option.none => .error .malformed

/-- Source `is_long_string` (utils.py:42-47): raises `SerializationError`
for a string longer than `65535 + 256` characters. -/
def is_long_string : PyValue → Except SerErr Bool
  | .str s => if s.length > 65535 + 256 then .error .valueTooLong else .ok Bool.true
  | _ => .ok Bool.false

/-- Source `serialize_long_string` (utils.py:50-52). -/
def serialize_long_string (s : String) : List Nat :=
  beBytes 2 (s.length - 256) ++ utf8Encode s

/-- Source `deserialize_long_string` (utils.py:55-57): like the short form
it decodes the entire remainder `v[2:]` and reports `length + 2` consumed. -/
def deserialize_long_string (v : List Nat) : Except SerErr (Nat × PyValue) :=
  if v.length < 2 then .error .malformed
  else
    let length := beVal (v.take 2) + 256
    match utf8Decode (v.drop 2) with
    | some text => .ok (length + 2, .str text)
    | Option.none => .error .malformed

/-- Source `is_bytes` (utils.py:60-61). -/
def is_bytes : PyValue → Except SerErr Bool
  | .bytes _ => .ok Bool.true
  | _ => .ok Bool.false

/-- Source `serialize_bytes` (utils.py:64-67). -/
def serialize_bytes (b : List Nat) : Except SerErr (List Nat) :=
  if b.length > 65535 then .error .valueTooLong
  else .ok (beBytes 2 b.length ++ b)

/-- Source `deserialize_bytes` (utils.py:70-72): returns the entire
remainder `v[2:]` while reporting `length + 2` consumed. -/
def deserialize_bytes (v : List Nat) : Except SerErr (Nat × PyValue) :=
  if v.length < 2 then .error .malformed
  else .ok (beVal (v.take 2) + 2, .bytes (v.drop 2))

/-- Source `sizes = [1, 2, 4, 8]` inside `integer_serializer`. -/
def int_sizes : List Nat := [1, 2, 4, 8]

/-- Source `integer_serializer(size_idx)` (utils.py:75-110): returns the
`(match, serialize, deserialize)` triple for one width class.  `size_idx`
is 1-based, negative for the negative classes; `subtract` and `max_val`
are accumulated over the smaller widths exactly as the Python loop does,
and the negative classes get `max_val += 1`. -/
def integer_serializer (size_idx : Int) :
    (PyValue → Except SerErr Bool) × (PyValue → Except SerErr (List Nat)) ×
      (List Nat → Except SerErr (Nat × PyValue)) :=
  let negative : Bool := decide (size_idx < 0)
  let idx : Nat := size_idx.natAbs - 1
  let size : Nat := int_sizes.getD idx 0
  let acc := (int_sizes.take (idx + 1)).foldl
    (fun (p : Nat × Nat) step => (p.2, p.2 + 256 ^ step)) (0, 0)
  let subtract : Nat := acc.1
  let max_val : Nat := if negative then acc.2 + 1 else acc.2
  ( fun v => match v with
      | .int val =>
        let val := if negative then -val else val
        .ok (decide (val ≥ 0 ∧ val < (max_val : Int)))
      | _ => .ok Bool.false,
    fun v => match v with
      | .int val =>
        let val := if negative then -val - 1 else val
        .ok (beBytes size (val - (subtract : Int)).toNat)
      | _ => .error .typeError,
    fun v =>
      if v.length < size then .error .malformed
      else
        let val : Int := (beVal (v.take size) + subtract : Nat)
        let val := if negative then -val - 1 else val
        .ok (size, .int val) )

/-- Source `VALUE_SERIALIZERS` (utils.py:114-129): the tag-ordered list of
`(check, serialize, deserialize)` triples; the tag of a value is the index
of the first checker that accepts it. -/
def VALUE_SERIALIZERS :
    List ((PyValue → Except SerErr Bool) × (PyValue → Except SerErr (List Nat)) ×
      (List Nat → Except SerErr (Nat × PyValue))) :=
  [ ( fun v => match v with | .none => .ok Bool.true | _ => .ok Bool.false,
      fun _ => .ok [], fun _ => .ok (0, .none) ),
    ( fun v => match v with | .true => .ok Bool.true | _ => .ok Bool.false,
      fun _ => .ok [], fun _ => .ok (0, .true) ),
    ( fun v => match v with | .false => .ok Bool.true | _ => .ok Bool.false,
      fun _ => .ok [], fun _ => .ok (0, .false) ),
    ( is_short_string,
      fun v => match v with
        | .str s => .ok (serialize_short_string s) | _ => .error .typeError,
      deserialize_short_string ),
    ( is_long_string,
      fun v => match v with
        | .str s => .ok (serialize_long_string s) | _ => .error .typeError,
      deserialize_long_string ),
    ( is_bytes,
      fun v => match v with
        | .bytes b => serialize_bytes b | _ => .error .typeError,
      deserialize_bytes ),
    integer_serializer 1, integer_serializer (-1),
    integer_serializer 2, integer_serializer (-2),
    integer_serializer 3, integer_serializer (-3),
    integer_serializer 4, integer_serializer (-4) ]

/-- One pass of the loop in `serialize_value` (utils.py:172-177): try the
checkers in order; the first accepting index `i` yields
`struct.pack("B", i) + serializer(value)`; `none` when no checker accepts. -/
def trySerialize (v : PyValue) :
    List ((PyValue → Except SerErr Bool) × (PyValue → Except SerErr (List Nat)) ×
      (List Nat → Except SerErr (Nat × PyValue))) → Nat →
    Except SerErr (Option (List Nat))
  | [], _ => .ok Option.none
  | t :: rest, i => do
    let b ← t.1 v
    if b then do
      let payload ← t.2.1 v
      pure (some (i :: payload))
    else
      trySerialize v rest (i + 1)

/-- Source `serialize_value` (utils.py:172-177) with explicit recursion
fuel: the fallback line `return serialize_value(str(value))` is one
recursive call on `str(value)`.  An exhausted fuel (`Option.none`) would
mean unbounded recursion. -/
def serializeValueF : Nat → PyValue → Option (Except SerErr (List Nat))
  | 0, _ => Option.none
  | n + 1, v =>
    match trySerialize v VALUE_SERIALIZERS 0 with
    | .error e => some (.error e)
    | .ok (some out) => some (.ok out)
    | .ok Option.none => serializeValueF n (.str (pyStr v))

/-- Source `serialize_value`, at the recursion depth that claim C10 shows
is always sufficient. -/
def serialize_value (v : PyValue) : Except SerErr (List Nat) :=
  (serializeValueF 2 v).getD (.error .malformed)

/-- Source `serialize_values` (utils.py:180-181). -/
def serialize_values (values : List PyValue) : Except SerErr (List Nat) :=
  values.foldlM (fun acc v => do
    let b ← serialize_value v
    pure (acc ++ b)) []

/-- Loop of source `deserialize_values` (utils.py:184-192): strip the tag
byte, dispatch on `VALUE_SERIALIZERS[tag]` (an out-of-range tag is a Python
`IndexError`), and advance by the consumed count the deserializer reports
(`if consumed: data = data[consumed:]`).  Each iteration consumes at least
the tag byte, so `fuel = data.length` always reaches the end (the
`0, _ :: _` case is unreachable then). -/
def deserializeValuesF : Nat → List Nat → Except SerErr (List PyValue)
  | _, [] => .ok []
  | 0, _ :: _ => .error .malformed
  | fuel + 1, data_type :: data =>
    match VALUE_SERIALIZERS[data_type]? with
    | Option.none => .error .malformed
    | some trip =>
      match trip.2.2 data with
      | .error e => .error e
      | .ok (consumed, value) =>
        match deserializeValuesF fuel (if consumed ≠ 0 then data.drop consumed else data) with
        | .error e => .error e
        | .ok values => .ok (value :: values)

/-- Source `deserialize_values` (utils.py:184-192). -/
def deserialize_values (data : List Nat) : Except SerErr (List PyValue) :=
  deserializeValuesF data.length data


/-- Comparison operators of a Django field lookup as `filter_by_order_key`
emits them: `eq` is the bare field name key (`name`), the others are
`name__lt`, `name__lte`, `name__gt`, `name__gte`. -/
inductive CmpOp where
  | eq : CmpOp
  | lt : CmpOp
  | lte : CmpOp
  | gt : CmpOp
  | gte : CmpOp
deriving DecidableEq, Repr

/-- Lookup-name of a comparison operator, as it appears in the dict key
(`f"{field_name}__{direction}"`). -/
def CmpOp.lookup : CmpOp → String
  | .eq => "eq"
  | .lt => "lt"
  | .lte => "lte"
  | .gt => "gt"
  | .gte => "gte"

/-- One leaf condition of a Django `Q` object: a comparison
`field <op> value` or an `isnull` test. -/
inductive Cond (α : Type) where
  | cmp : String → CmpOp → Option α → Cond α
  | isnull : String → Bool → Cond α
deriving DecidableEq, Repr

/-- The dict key under which `filter_by_order_key` stores a condition:
`field_name` for the equality pin, `field_name + "__" + op` for a
comparison, `field_name + "__isnull"` for a null test. -/
def Cond.key {α : Type} : Cond α → String
  | .cmp f .eq _ => f
  | .cmp f op _ => f ++ "__" ++ op.lookup
  | .isnull f _ => f ++ "__isnull"

/-- Python dict of lookup-key to condition, insertion ordered
(`filter_combinations` in the source).  Assigning to an existing key
replaces its value in place; assigning a fresh key appends. -/
def dictSet {α : Type} (d : List (String × Cond α)) (c : Cond α) :
    List (String × Cond α) :=
  if d.any (fun p => p.1 == c.key) then
    d.map (fun p => if p.1 == c.key then (c.key, c) else p)
  else
    d ++ [(c.key, c)]

/-- Python `dict.pop(key, None)`. -/
def dictPop {α : Type} (d : List (String × Cond α)) (k : String) :
    List (String × Cond α) :=
  d.filter (fun p => p.1 != k)

/-- A Django `Q` expression tree: `leafs cs` is `Q(**dict)` (the
conjunction of the dict's conditions, `Q()` when the dict is empty), and
`and`/`or` are the `&`/`|` combinators on non-empty operands. -/
inductive Q (α : Type) where
  | leafs : List (Cond α) → Q α
  | and : Q α → Q α → Q α
  | or : Q α → Q α → Q α
deriving DecidableEq, Repr

/-- Source `Q()`. -/
def Q.empty {α : Type} : Q α := .leafs []

/-- Python truthiness of a `Q` object (`tree.Node.__bool__`: true iff it
has children).  Combined nodes always have children. -/
def Q.isEmpty {α : Type} : Q α → Bool
  | .leafs [] => Bool.true
  | _ => Bool.false

/-- Django `Q.__or__` via `tree.Node._combine`: an empty operand yields a
copy of the other, otherwise an `OR` node. -/
def qOr {α : Type} (a b : Q α) : Q α :=
  if b.isEmpty then a else if a.isEmpty then b else .or a b

/-- Django `Q.__and__` via `tree.Node._combine`. -/
def qAnd {α : Type} (a b : Q α) : Q α :=
  if b.isEmpty then a else if a.isEmpty then b else .and a b

/-- The `Q(**filter_combinations)` construction: a conjunction of the
dict's conditions in insertion order. -/
def Q.ofDict {α : Type} (d : List (String × Cond α)) : Q α :=
  .leafs (d.map (fun p => p.2))

/-- A database row for predicate evaluation: each column holds a value of
the linearly ordered scalar type `α` or SQL `NULL` (`Option.none`). -/
def Row (α : Type) : Type := String → Option α

/-- SQL evaluation of one leaf condition against a row, as Django compiles
it: a comparison whose operand row value is `NULL` matches nothing; the
`exact` lookup with value `None` is compiled by Django to `IS NULL`;
`isnull=b` tests nullness. -/
def evalCond {α : Type} [LinearOrder α] (row : Row α) : Cond α → Bool
  | .isnull f b => (row f).isNone == b
  | .cmp f op ov =>
    match op, ov, row f with
    | .eq, Option.none, x => x.isNone
    | _, Option.none, _ => Bool.false
    | _, some _, Option.none => Bool.false
    | .eq, some v, some x => decide (x = v)
    | .lt, some v, some x => decide (x < v)
    | .lte, some v, some x => decide (x ≤ v)
    | .gt, some v, some x => decide (x > v)
    | .gte, some v, some x => decide (x ≥ v)

/-- SQL evaluation of a `Q` tree against a row. -/
def evalQ {α : Type} [LinearOrder α] (row : Row α) : Q α → Bool
  | .leafs cs => cs.all (fun c => evalCond row c)
  | .and a b => evalQ row a && evalQ row b
  | .or a b => evalQ row a || evalQ row b

/-- A Django `OrderBy` expression as `filter_by_order_key` consumes it:
the ordered column's name (`order_expression.expression.name`), the
`descending` flag and the `nulls_first`/`nulls_last` attributes (Python
`None` or a boolean; only `True` is truthy). -/
structure OrderExpr where
  name : String
  descending : Bool
  nulls_first : Option Bool := Option.none
  nulls_last : Option Bool := Option.none
deriving DecidableEq, Repr

/-- Python truthiness of an `Option Bool` attribute. -/
def truthy (o : Option Bool) : Bool := o == some Bool.true

/-- Source `invert_order_by` (utils.py:225-242): deep-copies the list,
inverts every `descending` flag and swaps a truthy `nulls_first` or
`nulls_last` (setting the other side to Python `None`). -/
def invert_order_by (order_by : List OrderExpr) : List OrderExpr :=
  order_by.map (fun f =>
    let f := { f with descending := !f.descending }
    if truthy f.nulls_first then
      { f with nulls_first := Option.none, nulls_last := some Bool.true }
    else if truthy f.nulls_last then
      { f with nulls_last := Option.none, nulls_first := some Bool.true }
    else f)

/-- Pagination direction (`constants.KEY_NEXT` / `constants.KEY_BACK`). -/
inductive Direction where
  | next : Direction
  | back : Direction
deriving DecidableEq, Repr

/-- The `InvalidPage` exception raised by `filter_by_order_key`. -/
inductive PageError where
  | invalidPage : PageError
deriving DecidableEq, Repr

/-- State threading per-column through the loop of `filter_by_order_key`:
the `filter_combinations` dict, the accumulated `q`, and the number of
`logger.warning` calls emitted. -/
structure BuildState (α : Type) where
  fc : List (String × Cond α)
  q : Q α
  warns : Nat

/-- The `for i, value in enumerate(zip(order_by, start_position))` loop of
`filter_by_order_key` (utils.py:283-341), carried out on the remaining
pairs with `i` the current index and `n = len(order_by)`. -/
def buildLoop {α : Type} :
    List (OrderExpr × Option α) → Nat → Nat → BuildState α → BuildState α
  | [], _, _, st => st
  | (oe, value) :: rest, i, n, st =>
    let is_last := i == n - 1
    let field_name := oe.name
    match value with
    | Option.none =>
      -- special NULL handling (utils.py:302-313)
      if truthy oe.nulls_last then
        buildLoop rest (i + 1) n
          { st with fc := dictSet st.fc (.isnull field_name Bool.true) }
      else if truthy oe.nulls_first then
        let fc := dictSet st.fc (.isnull field_name Bool.false)
        let q := qOr st.q (Q.ofDict fc)
        let fc := dictSet fc (.isnull field_name Bool.true)
        buildLoop rest (i + 1) n { fc := fc, q := q, warns := st.warns }
      else
        -- logger.warning, then fall through to "apply combination" with
        -- field_lookup = "" (utils.py:313, 335-341)
        let q := qOr st.q (Q.ofDict st.fc)
        let fc := dictSet (dictPop st.fc "") (.cmp field_name .eq Option.none)
        buildLoop rest (i + 1) n { fc := fc, q := q, warns := st.warns + 1 }
    | some v =>
      -- smaller or greater (utils.py:315-321)
      let dir := if oe.descending then CmpOp.lt else CmpOp.gt
      let dir := if is_last then
          (match dir with | .lt => CmpOp.lte | .gt => CmpOp.gte | d => d)
        else dir
      let cond := Cond.cmp field_name dir (some v)
      if truthy oe.nulls_last then
        -- widen with OR isnull (utils.py:324-331)
        let branch := qAnd (Q.ofDict st.fc)
          (qOr (Q.leafs [cond]) (Q.leafs [.isnull field_name Bool.true]))
        let q := qOr st.q branch
        let fc := dictSet st.fc (.cmp field_name .eq (some v))
        buildLoop rest (i + 1) n { fc := fc, q := q, warns := st.warns }
      else
        -- set lookup, apply combination, turn into equality (utils.py:333-341)
        let fc := dictSet st.fc cond
        let q := qOr st.q (Q.ofDict fc)
        let fc := dictSet (dictPop fc cond.key) (.cmp field_name .eq (some v))
        buildLoop rest (i + 1) n { fc := fc, q := q, warns := st.warns }

/-- Result of `filter_by_order_key`: the returned queryset, modelled by
what was attached to it.  `filter` is the `Q` passed to `qs.filter` and
`sentinel` the equality conditions of the sentinel annotation; both are
`Option.none` when `q` was falsy and the source skipped filtering and
annotating (`if q:`, utils.py:344). -/
structure FilterResult (α : Type) where
  filter : Option (Q α)
  sentinel : Option (List (Cond α))
  warns : Nat
deriving DecidableEq, Repr

/-- Source `filter_by_order_key(qs, direction, start_position)`
(utils.py:261-365).  The queryset is modelled by its effective ordering
(`get_order_by` plus `convert_order_by_to_expressions`), which is the only
part of `qs` the predicate construction reads. -/
def filter_by_order_key {α : Type} (order_by : List OrderExpr)
    (direction : Direction) (start_position : List (Option α)) :
    Except PageError (FilterResult α) :=
  if start_position.length != order_by.length then
    .error .invalidPage
  else
    let order_by := if direction == Direction.back then invert_order_by order_by
      else order_by
    let st := buildLoop (order_by.zip start_position) 0 order_by.length
      { fc := [], q := Q.empty, warns := 0 }
    if st.q.isEmpty then
      .ok { filter := Option.none, sentinel := Option.none, warns := st.warns }
    else
      .ok { filter := some st.q,
            sentinel := some (((order_by.zip start_position).foldl
              (fun d p => dictSet d (Cond.cmp p.1.name .eq p.2)) []).map
                (fun p => p.2)),
            warns := st.warns }


/-- Ordering of claims C2 and C8: `(name ASC, id ASC)`, no null policy. -/
def nameIdOrder : List OrderExpr :=
  [{ name := "name", descending := Bool.false },
   { name := "id", descending := Bool.false }]

/-- Ordering of claim C3: `(rating DESC NULLS LAST, id ASC)`. -/
def ratingIdOrder : List OrderExpr :=
  [{ name := "rating", descending := Bool.true, nulls_last := some Bool.true },
   { name := "id", descending := Bool.false }]

/-- Ordering of claim C4: a single `nulls-last` ascending column. -/
def ratingNLOrder : List OrderExpr :=
  [{ name := "rating", descending := Bool.false, nulls_last := some Bool.true }]

/-- Stated from the claim C2's words: the predicate
`name > b OR (name == b AND id >= n)`. -/
def c2_claimed {α : Type} (b n : α) : Q α :=
  .or (.leafs [.cmp "name" .gt (some b)])
    (.and (.leafs [.cmp "name" .eq (some b)]) (.leafs [.cmp "id" .gte (some n)]))

/-- Stated from the claim C3's words: the predicate
`rating < r OR rating IS NULL OR (rating == r AND id >= n)`. -/
def c3_claimed {α : Type} (r n : α) : Q α :=
  .or (.leafs [.cmp "rating" .lt (some r)])
    (.or (.leafs [.isnull "rating" Bool.true])
      (.and (.leafs [.cmp "rating" .eq (some r)]) (.leafs [.cmp "id" .gte (some n)])))

/-- Stated from the claim C8's words: with ordering `(name ASC, id ASC)`
and cursor `(1, null)`, "the non-null branch behavior" would emit for the
null `id` column the comparison OR-branch with the equality pin of `name`,
i.e. `name > 1 OR (name == 1 AND id >= null)`. -/
def c8_claimed : Q Int :=
  .or (.leafs [.cmp "name" .gt (some 1)])
    (.leafs [.cmp "name" .eq (some 1), .cmp "id" .gte Option.none])

/-- A row with `name = 1`, `id = 7`. -/
def c8_row : Row Int := fun f => if f == "name" then some 1 else some 7

/-- Cascading capacity of width class `c` (0-indexed over the widths
`[1, 2, 4, 8]`): `cap(c) = Σ_{i ≤ c} 256^{width_i}`, the spec's `cap`. -/
def capN (c : Nat) : Nat := ((int_sizes.take (c + 1)).map (fun w => 256 ^ w)).sum

/-- The spec's `bias(c) = cap(c-1)` (0 for class 0). -/
def biasN : Nat → Nat
  | 0 => 0
  | c + 1 => capN c

/-- Stated from claim C5's words: the width class its rule assigns to a
negative value of magnitude `m = -v - 1` — the smallest `c` (try order
1, 2, 4, 8 bytes) with `bias(c) ≤ m < cap(c) + 1`. -/
def claimNegClass (m : Nat) : Option Nat :=
  [0, 1, 2, 3].find? (fun c => decide (biasN c ≤ m ∧ m < capN c + 1))

/-- The class the code actually uses for a negative value of magnitude
`m = -v - 1`: the smallest `c` with `bias(c) ≤ m < cap(c)` (the source's
match test is `-v < cap(c) + 1`, i.e. `m < cap(c)`). -/
def codeNegClass (m : Nat) : Option Nat :=
  [0, 1, 2, 3].find? (fun c => decide (biasN c ≤ m ∧ m < capN c))

end UPag
namespace UPag

theorem beBytes_length (k n : Nat) : (beBytes k n).length = k := by
  induction k generalizing n with
  | zero => rfl
  | succ k ih => simp [beBytes, ih]

theorem beVal_append_one (l : List Nat) (b : Nat) :
    beVal (l ++ [b]) = beVal l * 256 + b := by
  simp [beVal, List.foldl_append]

theorem beVal_beBytes (k n : Nat) (h : n < 256 ^ k) :
    beVal (beBytes k n) = n := by
  induction k generalizing n with
  | zero => simp [beBytes, beVal]; omega
  | succ k ih =>
    have hdiv : n / 256 < 256 ^ k := by
      rw [Nat.div_lt_iff_lt_mul (by norm_num)]
      calc n < 256 ^ (k + 1) := h
        _ = 256 ^ k * 256 := by ring
    rw [beBytes, beVal_append_one, ih _ hdiv]
    omega


/-- C1 (code_bug evaluation): encoding the tuple `("a", "b")` and decoding
it back does not return the original tuple.  `serialize_values` emits
`[3, 1, 97, 3, 1, 98]`, but `deserialize_short_string` decodes the whole
remaining buffer (`v[1:]`) instead of `length` bytes, so the first decoded
value is the string "a\x03\x01b" and the round trip of the claim fails. -/
theorem c1_string_roundtrip_bug :
    serialize_values [.str "a", .str "b"] = .ok [3, 1, 97, 3, 1, 98] ∧
    deserialize_values [3, 1, 97, 3, 1, 98] = .ok [.str "a\x03\x01b", .str "b"] ∧
    deserialize_values [3, 1, 97, 3, 1, 98] ≠ .ok [.str "a", .str "b"] := by
  decide

/-- C4 (code_bug evaluation): for the single-column nulls-last ordering
with a null cursor value, forward, `filter_by_order_key` builds an empty
`Q`, so the `if q:` guard skips both the filter and the sentinel
annotation: the queryset is returned with no boundary predicate at all
(every row is kept), not with `column IS NULL`. -/
theorem c4_null_cursor_no_filter :
    filter_by_order_key (α := Int) ratingNLOrder .next [Option.none] =
      .ok { filter := Option.none, sentinel := Option.none, warns := 0 } := by
  decide

/-- C6: minimal-width integer encodings: `serialize_value 255` is the two
bytes `[6, 255]`, `serialize_value 256` the three bytes `[8, 0, 0]` and
`serialize_value (-1)` the two bytes `[7, 0]` (1-byte negative class). -/
theorem c6_minimal_width_sizes :
    serialize_value (.int 255) = .ok [6, 255] ∧
    (serialize_value (.int 255)).map List.length = .ok 2 ∧
    serialize_value (.int 256) = .ok [8, 0, 0] ∧
    (serialize_value (.int 256)).map List.length = .ok 3 ∧
    serialize_value (.int (-1)) = .ok [7, 0] ∧
    (serialize_value (.int (-1))).map List.length = .ok 2 := by
  decide

/-- C7: whenever the cursor tuple and the ordering have different lengths,
`filter_by_order_key` fails with `InvalidPage` before any predicate is
built or the queryset is touched. -/
theorem c7_length_mismatch_invalid_page {α : Type} (order_by : List OrderExpr)
    (direction : Direction) (start_position : List (Option α))
    (h : start_position.length ≠ order_by.length) :
    filter_by_order_key order_by direction start_position = .error .invalidPage := by
  unfold filter_by_order_key
  rw [if_pos]
  simpa using h

/-- Witness for C7 at a concrete mismatched pair: one ordering column,
empty cursor. -/
theorem c7_length_mismatch_witness :
    filter_by_order_key (α := Int) nameIdOrder .next [some 3] = .error .invalidPage :=
  c7_length_mismatch_invalid_page nameIdOrder .next [some 3] (by decide)

end UPag

namespace UPag

/-- C2: for the ordering `(name ASC, id ASC)` with cursor `(b, n)` in the
forward direction, `filter_by_order_key` applies a filter whose evaluation
on every row coincides with `name > b OR (name == b AND id >= n)`: each
OR-branch carries the equality pins of the earlier columns, the non-final
column is compared strictly and only the final column inclusively (`gte`),
so the pivot row is retained. -/
theorem c2_two_column_asc_predicate {α : Type} [LinearOrder α] (b n : α) (row : Row α) :
    (filter_by_order_key nameIdOrder .next [some b, some n]).map
      (fun r => r.filter.map (evalQ row)) = .ok (some (evalQ row (c2_claimed b n))) := by
  have h : filter_by_order_key nameIdOrder .next [some b, some n] =
      .ok { filter := some (.or (.leafs [.cmp "name" .gt (some b)])
              (.leafs [.cmp "name" .eq (some b), .cmp "id" .gte (some n)])),
            sentinel := some [.cmp "name" .eq (some b), .cmp "id" .eq (some n)],
            warns := 0 } := rfl
  rw [h]
  simp [Except.map, c2_claimed, evalQ, Bool.and_true]

/-- C3: for the ordering `(rating DESC NULLS LAST, id ASC)` with cursor
`(r, n)` in the forward direction, the applied filter evaluates on every
row as `rating < r OR rating IS NULL OR (rating == r AND id >= n)`: the
non-null nulls-last branch is widened with an `IS NULL` disjunct and the
equality pin fixes `rating` for the final column's branch. -/
theorem c3_desc_nulls_last_predicate {α : Type} [LinearOrder α] (r n : α) (row : Row α) :
    (filter_by_order_key ratingIdOrder .next [some r, some n]).map
      (fun res => res.filter.map (evalQ row)) = .ok (some (evalQ row (c3_claimed r n))) := by
  have h : filter_by_order_key ratingIdOrder .next [some r, some n] =
      .ok { filter := some (.or (.or (.leafs [.cmp "rating" .lt (some r)])
              (.leafs [.isnull "rating" Bool.true]))
              (.leafs [.cmp "rating" .eq (some r), .cmp "id" .gte (some n)])),
            sentinel := some [.cmp "rating" .eq (some r), .cmp "id" .eq (some n)],
            warns := 0 } := rfl
  rw [h]
  simp [Except.map, c3_claimed, evalQ, Bool.and_true, Bool.or_assoc]

end UPag

namespace UPag

/-- Counterexample to C8 as stated: at ordering `(name ASC, id ASC)`,
cursor `(1, null)` (the `id` column has no null policy), forward, the code
emits for the last column an OR-branch that is the equality pin alone —
no comparison at all — so the row `(name = 1, id = 7)` matches the built
filter but not the comparison-emitting predicate the claim describes. -/
theorem c8_counterexample :
    filter_by_order_key (α := Int) nameIdOrder .next [some 1, Option.none] =
      .ok { filter := some (.or (.leafs [.cmp "name" .gt (some 1)])
              (.leafs [.cmp "name" .eq (some 1)])),
            sentinel := some [.cmp "name" .eq (some 1), .cmp "id" .eq Option.none],
            warns := 1 } ∧
    (filter_by_order_key (α := Int) nameIdOrder .next [some 1, Option.none]).map
      (fun r => r.filter.map (evalQ c8_row)) = .ok (some Bool.true) ∧
    evalQ c8_row c8_claimed = Bool.false := by
  decide

/-- C8 as amended: when a column's cursor value is null and the column
specifies neither `nulls_first` nor `nulls_last`, the builder records the
diagnostic warning and then falls through to the generic apply step with
an empty lookup: the OR-branch emitted is the current equality-pin dict
alone (no comparison on the column, no null-aware widening), and the dict
is extended with `column == None` before the next column. -/
theorem c8_no_policy_amended {α : Type} (oe : OrderExpr)
    (rest : List (OrderExpr × Option α)) (i n : Nat) (st : BuildState α)
    (hnf : ¬ truthy oe.nulls_first = Bool.true)
    (hnl : ¬ truthy oe.nulls_last = Bool.true) :
    buildLoop ((oe, Option.none) :: rest) i n st =
      buildLoop rest (i + 1) n
        { fc := dictSet (dictPop st.fc "") (.cmp oe.name .eq Option.none),
          q := qOr st.q (Q.ofDict st.fc),
          warns := st.warns + 1 } := by
  simp [buildLoop, hnf, hnl]

/-- Witness for C8's amended theorem: the second column of the
counterexample input, entered with the state the first column leaves. -/
theorem c8_no_policy_witness :
    buildLoop (α := Int)
      [({ name := "id", descending := Bool.false }, Option.none)] 1 2
      { fc := [("name", .cmp "name" .eq (some 1))],
        q := .leafs [.cmp "name" .gt (some 1)], warns := 0 } =
    buildLoop (α := Int) [] 2 2
      { fc := dictSet (dictPop [("name", .cmp "name" .eq (some 1))] "")
          (.cmp "id" .eq Option.none),
        q := qOr (.leafs [.cmp "name" .gt (some 1)])
          (Q.ofDict [("name", .cmp "name" .eq (some 1))]),
        warns := 0 + 1 } :=
  c8_no_policy_amended (α := Int) { name := "id", descending := Bool.false } [] 1 2
    { fc := [("name", .cmp "name" .eq (some 1))],
      q := .leafs [.cmp "name" .gt (some 1)], warns := 0 }
    (by decide) (by decide)

/-- C9: `invert_order_by` is an involution on every ordering in which no
column sets both `nulls_first` and `nulls_last`: applying it twice
restores every column's direction and null policy.  (The embedding is a
pure function returning a fresh list, so the argument itself is never
mutated.) -/
theorem c9_invert_order_by_involution (order_by : List OrderExpr)
    (h : ∀ f ∈ order_by, f.nulls_first = Option.none ∨ f.nulls_last = Option.none) :
    invert_order_by (invert_order_by order_by) = order_by := by
  induction order_by with
  | nil => rfl
  | cons f rest ih =>
    have hf := h f (by simp)
    have hr := ih (fun g hg => h g (by simp [hg]))
    simp only [invert_order_by, List.map_cons] at hr ⊢
    refine congrArg₂ List.cons ?_ hr
    rcases f with ⟨nm, desc, nf, nl⟩
    rcases nf with _ | b <;> rcases nl with _ | c
    all_goals try cases b
    all_goals try cases c
    all_goals simp_all [truthy]

/-- Witness for C9 at a concrete two-column ordering using both null
policies. -/
theorem c9_involution_witness :
    invert_order_by (invert_order_by
      [{ name := "a", descending := Bool.true, nulls_first := some Bool.true },
       { name := "b", descending := Bool.false, nulls_last := some Bool.true }]) =
      [{ name := "a", descending := Bool.true, nulls_first := some Bool.true },
       { name := "b", descending := Bool.false, nulls_last := some Bool.true }] :=
  c9_invert_order_by_involution
    [{ name := "a", descending := Bool.true, nulls_first := some Bool.true },
     { name := "b", descending := Bool.false, nulls_last := some Bool.true }]
    (by decide)

end UPag

namespace UPag

/-- On a string, the serializer dispatch never falls through: a string of
fewer than 256 characters matches the short-string class, one of up to
`65535 + 256` characters matches the long-string class, and a longer one
raises `SerializationError` inside `is_long_string`. -/
theorem trySerialize_str (s : String) :
    trySerialize (.str s) VALUE_SERIALIZERS 0 =
      if s.length < 256 then .ok (some (3 :: serialize_short_string s))
      else if s.length > 65535 + 256 then .error .valueTooLong
      else .ok (some (4 :: serialize_long_string s)) := by
  by_cases h1 : s.length < 256
  · simp [trySerialize, VALUE_SERIALIZERS, is_short_string, is_long_string, h1,
      Bind.bind, Except.bind, Pure.pure, Except.pure]
  · by_cases h2 : s.length > 65535 + 256
    · simp [trySerialize, VALUE_SERIALIZERS, is_short_string, is_long_string, h1, h2,
        Bind.bind, Except.bind, Pure.pure, Except.pure]
    · simp [trySerialize, VALUE_SERIALIZERS, is_short_string, is_long_string, h1, h2,
        Bind.bind, Except.bind, Pure.pure, Except.pure, integer_serializer, is_bytes]

/-- On a string, any non-zero recursion fuel gives `serialize_value` the
same result: the dispatch resolves without the fallback. -/
theorem serializeValueF_str_fuel (s : String) (m : Nat) :
    serializeValueF (m + 1) (.str s) = serializeValueF 1 (.str s) := by
  rw [show (1 : Nat) = 0 + 1 from rfl]
  simp only [serializeValueF]
  rw [trySerialize_str s]
  split_ifs <;> rfl

/-- C10: `serialize_value` terminates on every input: recursion depth 2 is
always enough (larger fuel changes nothing and depth 2 never runs out),
because the fallback recurses exactly once, on `str(value)`, and a string
always either matches the short- or long-string class or raises. -/
theorem c10_serialize_value_terminates (v : PyValue) (n : Nat) :
    serializeValueF (n + 2) v = serializeValueF 2 v ∧
    (serializeValueF 2 v).isSome = Bool.true := by
  constructor
  · show serializeValueF (n + 1 + 1) v = serializeValueF (1 + 1) v
    simp only [serializeValueF]
    cases trySerialize v VALUE_SERIALIZERS 0 with
    | error e => rfl
    | ok o =>
      cases o with
      | some out => rfl
      | none => exact serializeValueF_str_fuel (pyStr v) n
  · show (serializeValueF (1 + 1) v).isSome = Bool.true
    simp only [serializeValueF]
    cases trySerialize v VALUE_SERIALIZERS 0 with
    | error e => rfl
    | ok o =>
      cases o with
      | some out => rfl
      | none =>
        rw [trySerialize_str]
        split_ifs <;> rfl

end UPag

namespace UPag

/-- Counterexample to C5 as stated: at `v = -257` the magnitude is
`m = 256`, and the claim's rule `bias(c) ≤ m < cap(c) + 1` selects the
1-byte class 0 (`0 ≤ 256 < 257`), whose payload `m - bias(0) = 256` does
not even fit one byte; the encoder instead emits tag 9 — the 2-byte
negative class — with payload `[0, 0]`. -/
theorem c5_neg_class_counterexample :
    claimNegClass 256 = some 0 ∧
    serialize_value (.int (-257)) = .ok [9, 0, 0] ∧
    codeNegClass 256 = some 1 := by
  decide

end UPag

namespace UPag

/-- Encoding of a 1-byte-class negative integer (`-256 ≤ v ≤ -1`): tag 7,
payload `-v - 1` in one byte. -/
theorem serialize_int_neg1 (v : Int) (h0 : v < 0) (h2 : -v < 257) :
    serialize_value (.int v) = .ok (7 :: beBytes 1 (-v - 1).toNat) := by
  have ht : trySerialize (.int v) VALUE_SERIALIZERS 0 =
      .ok (some (7 :: beBytes 1 (-v - 1).toNat)) := by
    simp [trySerialize, VALUE_SERIALIZERS, is_short_string, is_long_string, is_bytes,
      integer_serializer, int_sizes, Bind.bind, Except.bind, Pure.pure, Except.pure,
      show ¬(0 ≤ v) by omega, h2, show v ≤ 0 by omega]
  simp [serialize_value, serializeValueF, ht]

/-- Encoding of a 2-byte-class negative integer: tag 9, payload
`-v - 1 - 256` in two bytes. -/
theorem serialize_int_neg2 (v : Int) (h1 : ¬(-v < 257))
    (h2 : -v < 65793) :
    serialize_value (.int v) = .ok (9 :: beBytes 2 (-v - 1 - 256).toNat) := by
  have ht : trySerialize (.int v) VALUE_SERIALIZERS 0 =
      .ok (some (9 :: beBytes 2 (-v - 1 - 256).toNat)) := by
    simp [trySerialize, VALUE_SERIALIZERS, is_short_string, is_long_string, is_bytes,
      integer_serializer, int_sizes, Bind.bind, Except.bind, Pure.pure, Except.pure,
      show ¬(0 ≤ v) by omega, h1, h2, show v ≤ 0 by omega]
  simp [serialize_value, serializeValueF, ht]

/-- Encoding of a 4-byte-class negative integer: tag 11, payload
`-v - 1 - 65792` in four bytes. -/
theorem serialize_int_neg4 (v : Int) (h1 : ¬(-v < 257))
    (h2 : ¬(-v < 65793)) (h3 : -v < 4295033089) :
    serialize_value (.int v) = .ok (11 :: beBytes 4 (-v - 1 - 65792).toNat) := by
  have ht : trySerialize (.int v) VALUE_SERIALIZERS 0 =
      .ok (some (11 :: beBytes 4 (-v - 1 - 65792).toNat)) := by
    simp [trySerialize, VALUE_SERIALIZERS, is_short_string, is_long_string, is_bytes,
      integer_serializer, int_sizes, Bind.bind, Except.bind, Pure.pure, Except.pure,
      show ¬(0 ≤ v) by omega, h1, h2, h3, show v ≤ 0 by omega]
  simp [serialize_value, serializeValueF, ht]

/-- Encoding of an 8-byte-class negative integer: tag 13, payload
`-v - 1 - 4295033088` in eight bytes. -/
theorem serialize_int_neg8 (v : Int) (h1 : ¬(-v < 257))
    (h2 : ¬(-v < 65793)) (h3 : ¬(-v < 4295033089))
    (h4 : -v < 18446744078004584705) :
    serialize_value (.int v) = .ok (13 :: beBytes 8 (-v - 1 - 4295033088).toNat) := by
  have ht : trySerialize (.int v) VALUE_SERIALIZERS 0 =
      .ok (some (13 :: beBytes 8 (-v - 1 - 4295033088).toNat)) := by
    simp [trySerialize, VALUE_SERIALIZERS, is_short_string, is_long_string, is_bytes,
      integer_serializer, int_sizes, Bind.bind, Except.bind, Pure.pure, Except.pure,
      show ¬(0 ≤ v) by omega, h1, h2, h3, h4, show v ≤ 0 by omega]
  simp [serialize_value, serializeValueF, ht]

/-- Decoding a 1-byte-class negative payload recovers `-(m) - 1`. -/
theorem deserialize_int_neg1 (m : Nat) (h2 : m < 256) :
    deserialize_values (7 :: beBytes 1 m) = .ok [.int (-(m : Int) - 1)] := by
  have hlen : (beBytes 1 m).length = 1 := beBytes_length _ _
  have h0 : deserialize_values (7 :: beBytes 1 m) =
      deserializeValuesF ((beBytes 1 m).length + 1) (7 :: beBytes 1 m) := rfl
  have htag : VALUE_SERIALIZERS[(7 : Nat)]? = some (integer_serializer (-1)) := rfl
  have hdeser : ∀ l : List Nat, (integer_serializer (-1)).2.2 l =
      if l.length < 1 then .error .malformed
      else .ok (1, .int (-((beVal (l.take 1) : Nat) : Int) - 1)) :=
    fun _ => rfl
  have htake : List.take 1 (beBytes 1 m) = beBytes 1 m := by
    conv_lhs => rw [← hlen]
    exact List.take_length _
  have hdropn : List.drop 1 (beBytes 1 m) = [] := by
    conv_lhs => rw [← hlen]
    exact List.drop_length _
  rw [h0, hlen]
  simp only [deserializeValuesF, htag]
  rw [hdeser, hlen]
  rw [if_neg (by omega)]
  rw [htake, beVal_beBytes 1 _ (by omega)]
  dsimp only
  rw [if_pos (by decide : (1 : Nat) ≠ 0)]
  rw [hdropn]
  rfl

/-- Decoding a 2-byte-class negative payload recovers `-(p + 256) - 1`. -/
theorem deserialize_int_neg2 (m : Nat) (h1 : 256 ≤ m) (h2 : m < 65792) :
    deserialize_values (9 :: beBytes 2 (m - 256)) = .ok [.int (-(m : Int) - 1)] := by
  have hlen : (beBytes 2 (m - 256)).length = 2 := beBytes_length _ _
  have h0 : deserialize_values (9 :: beBytes 2 (m - 256)) =
      deserializeValuesF ((beBytes 2 (m - 256)).length + 1) (9 :: beBytes 2 (m - 256)) := rfl
  have htag : VALUE_SERIALIZERS[(9 : Nat)]? = some (integer_serializer (-2)) := rfl
  have hdeser : ∀ l : List Nat, (integer_serializer (-2)).2.2 l =
      if l.length < 2 then .error .malformed
      else .ok (2, .int (-((beVal (l.take 2) + 256 : Nat) : Int) - 1)) :=
    fun _ => rfl
  have htake : List.take 2 (beBytes 2 (m - 256)) = beBytes 2 (m - 256) := by
    conv_lhs => rw [← hlen]
    exact List.take_length _
  have hdropn : List.drop 2 (beBytes 2 (m - 256)) = [] := by
    conv_lhs => rw [← hlen]
    exact List.drop_length _
  rw [h0, hlen]
  simp only [deserializeValuesF, htag]
  rw [hdeser, hlen]
  rw [if_neg (by omega)]
  rw [htake, beVal_beBytes 2 _ (by omega)]
  have hcast : ((m - 256 + 256 : Nat) : Int) = (m : Int) := by omega
  rw [hcast]
  dsimp only
  rw [if_pos (by decide : (2 : Nat) ≠ 0)]
  rw [hdropn]
  rfl

/-- Decoding a 4-byte-class negative payload recovers `-(p + 65792) - 1`. -/
theorem deserialize_int_neg4 (m : Nat) (h1 : 65792 ≤ m) (h2 : m < 4295033088) :
    deserialize_values (11 :: beBytes 4 (m - 65792)) = .ok [.int (-(m : Int) - 1)] := by
  have hlen : (beBytes 4 (m - 65792)).length = 4 := beBytes_length _ _
  have h0 : deserialize_values (11 :: beBytes 4 (m - 65792)) =
      deserializeValuesF ((beBytes 4 (m - 65792)).length + 1)
        (11 :: beBytes 4 (m - 65792)) := rfl
  have htag : VALUE_SERIALIZERS[(11 : Nat)]? = some (integer_serializer (-3)) := rfl
  have hdeser : ∀ l : List Nat, (integer_serializer (-3)).2.2 l =
      if l.length < 4 then .error .malformed
      else .ok (4, .int (-((beVal (l.take 4) + 65792 : Nat) : Int) - 1)) :=
    fun _ => rfl
  have htake : List.take 4 (beBytes 4 (m - 65792)) = beBytes 4 (m - 65792) := by
    conv_lhs => rw [← hlen]
    exact List.take_length _
  have hdropn : List.drop 4 (beBytes 4 (m - 65792)) = [] := by
    conv_lhs => rw [← hlen]
    exact List.drop_length _
  rw [h0, hlen]
  simp only [deserializeValuesF, htag]
  rw [hdeser, hlen]
  rw [if_neg (by omega)]
  rw [htake, beVal_beBytes 4 _ (by omega)]
  have hcast : ((m - 65792 + 65792 : Nat) : Int) = (m : Int) := by omega
  rw [hcast]
  dsimp only
  rw [if_pos (by decide : (4 : Nat) ≠ 0)]
  rw [hdropn]
  rfl

/-- Decoding an 8-byte-class negative payload recovers `-(p + 4295033088) - 1`. -/
theorem deserialize_int_neg8 (m : Nat) (h1 : 4295033088 ≤ m)
    (h2 : m < 18446744078004584704) :
    deserialize_values (13 :: beBytes 8 (m - 4295033088)) =
      .ok [.int (-(m : Int) - 1)] := by
  have hlen : (beBytes 8 (m - 4295033088)).length = 8 := beBytes_length _ _
  have h0 : deserialize_values (13 :: beBytes 8 (m - 4295033088)) =
      deserializeValuesF ((beBytes 8 (m - 4295033088)).length + 1)
        (13 :: beBytes 8 (m - 4295033088)) := rfl
  have htag : VALUE_SERIALIZERS[(13 : Nat)]? = some (integer_serializer (-4)) := rfl
  have hdeser : ∀ l : List Nat, (integer_serializer (-4)).2.2 l =
      if l.length < 8 then .error .malformed
      else .ok (8, .int (-((beVal (l.take 8) + 4295033088 : Nat) : Int) - 1)) :=
    fun _ => rfl
  have htake : List.take 8 (beBytes 8 (m - 4295033088)) = beBytes 8 (m - 4295033088) := by
    conv_lhs => rw [← hlen]
    exact List.take_length _
  have hdropn : List.drop 8 (beBytes 8 (m - 4295033088)) = [] := by
    conv_lhs => rw [← hlen]
    exact List.drop_length _
  rw [h0, hlen]
  simp only [deserializeValuesF, htag]
  rw [hdeser, hlen]
  rw [if_neg (by omega)]
  rw [htake, beVal_beBytes 8 _ (by omega)]
  have hcast : ((m - 4295033088 + 4295033088 : Nat) : Int) = (m : Int) := by omega
  rw [hcast]
  dsimp only
  rw [if_pos (by decide : (8 : Nat) ≠ 0)]
  rw [hdropn]
  rfl

end UPag

namespace UPag

/-- Evaluated capacities of the four width classes. -/
theorem capN_values :
    capN 0 = 256 ∧ capN 1 = 65792 ∧ capN 2 = 4295033088 ∧
    capN 3 = 18446744078004584704 := by
  decide

/-- C5 as amended: for every negative integer `v` with magnitude
`m = -v - 1`, the encoder assigns `v` to the smallest width class `c`
(try order 1, 2, 4, 8 bytes) satisfying `bias(c) ≤ m < cap(c)` — not
`cap(c) + 1` as the claim states — stores big-endian unsigned
`m - bias(c)` in `width_c` bytes after the tag `7 + 2c`, and the decoder
recovers `v = -(U + bias(c)) - 1`. -/
theorem c5_neg_class_amended (v : Int) (c : Nat) (hneg : v < 0)
    (hc : codeNegClass (-v - 1).toNat = some c) :
    serialize_value (.int v) =
      .ok ((7 + 2 * c) :: beBytes (int_sizes.getD c 0) ((-v - 1).toNat - biasN c)) ∧
    deserialize_values
      ((7 + 2 * c) :: beBytes (int_sizes.getD c 0) ((-v - 1).toNat - biasN c)) =
      .ok [.int v] := by
  have hmm : (((-v - 1).toNat : Nat) : Int) = -v - 1 := Int.toNat_of_nonneg (by omega)
  obtain ⟨e0, e1, e2, e3⟩ := capN_values
  generalize hg : (-v - 1).toNat = m at hc hmm ⊢
  have hrange : (c = 0 ∧ m < 256) ∨
      (c = 1 ∧ 256 ≤ m ∧ m < 65792) ∨
      (c = 2 ∧ 65792 ≤ m ∧ m < 4295033088) ∨
      (c = 3 ∧ 4295033088 ≤ m ∧ m < 18446744078004584704) := by
    by_cases k0 : m < 256
    · left
      refine ⟨?_, k0⟩
      simp [codeNegClass, List.find?, biasN, e0, k0] at hc
      omega
    · by_cases k1 : m < 65792
      · right; left
        refine ⟨?_, by omega, k1⟩
        simp [codeNegClass, List.find?, biasN, e0, e1, k0, k1,
          show 256 ≤ m by omega] at hc
        omega
      · by_cases k2 : m < 4295033088
        · right; right; left
          refine ⟨?_, by omega, k2⟩
          simp [codeNegClass, List.find?, biasN, e0, e1, e2, k0, k1, k2,
            show 65792 ≤ m by omega] at hc
          omega
        · by_cases k3 : m < 18446744078004584704
          · right; right; right
            refine ⟨?_, by omega, k3⟩
            simp [codeNegClass, List.find?, biasN, e0, e1, e2, e3, k0, k1, k2, k3,
              show 4295033088 ≤ m by omega] at hc
            omega
          · exfalso
            simp [codeNegClass, List.find?, biasN, e0, e1, e2, e3, k0, k1, k2, k3] at hc
  rcases hrange with ⟨hc0, hb⟩ | ⟨hc0, hb1, hb2⟩ | ⟨hc0, hb1, hb2⟩ | ⟨hc0, hb1, hb2⟩
  · subst hc0
    have hp : (-v - 1).toNat - biasN 0 = m := by rw [hg]; simp [biasN]
    constructor
    · have := serialize_int_neg1 v hneg (by omega)
      rw [hg] at this
      simpa [int_sizes, biasN] using this
    · have := deserialize_int_neg1 m hb
      rw [show -((m : Nat) : Int) - 1 = v by omega] at this
      simpa [int_sizes, biasN] using this
  · subst hc0
    have hbias : biasN 1 = 256 := by simp [biasN, e0]
    rw [hbias]
    constructor
    · have := serialize_int_neg2 v (by omega) (by omega)
      rw [show (-v - 1 - 256).toNat = (-v - 1).toNat - 256 by omega, hg] at this
      simpa [int_sizes] using this
    · have := deserialize_int_neg2 m hb1 hb2
      rw [show -((m : Nat) : Int) - 1 = v by omega] at this
      simpa [int_sizes] using this
  · subst hc0
    have hbias : biasN 2 = 65792 := by simp [biasN, e1]
    rw [hbias]
    constructor
    · have := serialize_int_neg4 v (by omega) (by omega) (by omega)
      rw [show (-v - 1 - 65792).toNat = (-v - 1).toNat - 65792 by omega, hg] at this
      simpa [int_sizes] using this
    · have := deserialize_int_neg4 m hb1 hb2
      rw [show -((m : Nat) : Int) - 1 = v by omega] at this
      simpa [int_sizes] using this
  · subst hc0
    have hbias : biasN 3 = 4295033088 := by simp [biasN, e2]
    rw [hbias]
    constructor
    · have := serialize_int_neg8 v (by omega) (by omega) (by omega) (by omega)
      rw [show (-v - 1 - 4295033088).toNat = (-v - 1).toNat - 4295033088 by omega, hg] at this
      simpa [int_sizes] using this
    · have := deserialize_int_neg8 m hb1 hb2
      rw [show -((m : Nat) : Int) - 1 = v by omega] at this
      simpa [int_sizes] using this

/-- Witness for C5's amended theorem at `v = -257` (`m = 256`, the exact
boundary the original claim misplaces): class 1, tag 9, payload `[0, 0]`,
and decoding returns `-257`. -/
theorem c5_neg_class_amended_witness :
    serialize_value (.int (-257)) =
      .ok ((7 + 2 * 1) :: beBytes (int_sizes.getD 1 0) (((-(-257 : Int) - 1).toNat) - biasN 1)) ∧
    deserialize_values
      ((7 + 2 * 1) :: beBytes (int_sizes.getD 1 0) (((-(-257 : Int) - 1).toNat) - biasN 1)) =
      .ok [.int (-257)] :=
  c5_neg_class_amended (-257) 1 (by decide) (by decide)

end UPag
